import Mathlib

/- Verification of the model-status caching and validation subsystem of the
   opencode-llama.cpp plugin.

   The definitions below are a shallow embedding of the TypeScript sources:
   - ModelStatusCache (src/cache/model-status-cache.ts, shown inside
     src/monitoring/loading-monitor.ts): getModels, invalidate, forceRefresh,
     cleanup.  Timestamps, ages and ttl values are modelled as Int (JS number
     arithmetic on Date.now values); the map from base URL to entry is an
     association list in insertion order, which is exactly the iteration and
     update order of a JS Map.
   - retryWithBackoff, categorizeError, findSimilarModels (src/utils/index.ts).
   - normalizeBaseURL, buildAPIURL, fetchModelsDirect, discoverLlamaCppModels
     (src/utils/llama-cpp-api.ts).
   Asynchronous functions are modelled by passing the outcome of the single
   I/O action they perform as an explicit argument (Except for fallible
   actions); similarity scores are modelled as exact rationals where the
   source uses JS floating point. -/

namespace LlamaCpp

/-! ## String helpers (models of the JS string operations used by the code) -/

/-- Boolean test that the first list is a prefix of the second. -/
def isPrefixL : List Char → List Char → Bool
  | [], _ => true
  | _ :: _, [] => false
  | a :: as, b :: bs => a == b && isPrefixL as bs

/-- Models JS String.prototype.includes: needle occurs contiguously in hay. -/
def containsSeq (needle : List Char) : List Char → Bool
  | [] => isPrefixL needle []
  | c :: t => isPrefixL needle (c :: t) || containsSeq needle t

/-- Models s.includes(pat) on JS strings. -/
def strIncludes (s pat : String) : Bool :=
  containsSeq pat.toList s.toList

/-- Models JS String.prototype.endsWith. -/
def endsWithL (s suffixChars : List Char) : Bool :=
  isPrefixL suffixChars.reverse s.reverse

/-- Models String(x).toLowerCase() on the character lists we use (the JS
    function also lowercases non-ASCII letters; Char.toLower lowercases the
    ASCII range, which is all the code and claims exercise). -/
def lowerStr (s : String) : String :=
  String.mk (s.toList.map Char.toLower)

/-! ## ModelStatusCache (src/cache/model-status-cache.ts)

  class ModelStatusCache, fields: cache : Map from baseURL to
  { models: string[], timestamp: number, ttl: number },
  DEFAULT_TTL = 15000, MAX_CACHE_SIZE = 50. -/

structure CacheEntry where
  models : List String
  timestamp : Int
  ttl : Int
deriving DecidableEq

abbrev Cache := List (String × CacheEntry)

def DEFAULT_TTL : Int := 15000

def MAX_CACHE_SIZE : Nat := 50

/-- Models Map.set: replace in place when the key is present, append
    otherwise (JS Map keeps the original insertion position on update). -/
def setEntry {β : Type} : List (String × β) → String → β → List (String × β)
  | [], k, e => [(k, e)]
  | (k0, e0) :: rest, k, e =>
      if k0 == k then (k, e) :: rest else (k0, e0) :: setEntry rest k e

/-- Models ModelStatusCache.invalidate: Map.delete on the key. -/
def invalidate {β : Type} (c : List (String × β)) (k : String) : List (String × β) :=
  c.filter (fun p => !(p.1 == k))

/-- Models ModelStatusCache.cleanup: one pass over the entries collects into
    toDelete every key whose entry is older than 5 times its ttl or for which
    the cache is over MAX_CACHE_SIZE (the size does not change during the
    scan, because the deletions happen only afterwards), then deletes the
    collected keys. -/
def cleanup (now : Int) (c : Cache) : Cache :=
  let toDelete :=
    (c.filter (fun p =>
      decide (now - p.2.timestamp > p.2.ttl * 5) || decide (c.length > MAX_CACHE_SIZE))).map Prod.fst
  c.filter (fun p => !(toDelete.contains p.1))

/-- Models the body of getModels after the cache-hit test failed: invoke
    fetchFn (its outcome is the fetch argument), on success store a fresh
    entry (the source stores a copy of the array; lists are values here, the
    aliasing behaviour is modelled separately below) and run cleanup when the
    size exceeds MAX_CACHE_SIZE; on failure fall back to the stale entry when
    one exists, invalidating it first when it is older than 5 times its ttl,
    and rethrow otherwise.  The Bool records that fetchFn was invoked. -/
def refreshPath {ε : Type} (now : Int) (c : Cache) (baseURL : String)
    (fetch : Except ε (List String)) (cached : Option CacheEntry) :
    Except ε (List String) × Cache × Bool :=
  match fetch with
  | Except.ok models =>
      let c1 := setEntry c baseURL { models := models, timestamp := now, ttl := DEFAULT_TTL }
      let c2 := if c1.length > MAX_CACHE_SIZE then cleanup now c1 else c1
      (Except.ok models, c2, true)
  | Except.error e =>
      match cached with
      | some d =>
          let c1 := if now - d.timestamp > d.ttl * 5 then invalidate c baseURL else c
          (Except.ok d.models, c1, true)
      | none => (Except.error e, c, true)

/-- Models ModelStatusCache.getModels(baseURL, fetchFn): return the cached
    models when the entry age is strictly below its ttl, otherwise refresh.
    The Bool component records whether fetchFn was invoked. -/
def getModels {ε : Type} (now : Int) (c : Cache) (baseURL : String)
    (fetch : Except ε (List String)) : Except ε (List String) × Cache × Bool :=
  match List.lookup baseURL c with
  | some d =>
      if now - d.timestamp < d.ttl then (Except.ok d.models, c, false)
      else refreshPath now c baseURL fetch (some d)
  | none => refreshPath now c baseURL fetch none

/-- Models ModelStatusCache.forceRefresh: invalidate the key, then getModels. -/
def forceRefresh {ε : Type} (now : Int) (c : Cache) (baseURL : String)
    (fetch : Except ε (List String)) : Except ε (List String) × Cache × Bool :=
  getModels now (invalidate c baseURL) baseURL fetch

/-- Runs a sequence of getModels calls for one base URL, threading the cache
    and counting how many calls invoked the underlying fetch function. -/
def runGetModels {ε : Type} (baseURL : String) :
    Cache → List (Int × Except ε (List String)) → Cache × Nat
  | c, [] => (c, 0)
  | c, (t, f) :: rest =>
      let step := getModels t c baseURL f
      let next := runGetModels baseURL step.2.1 rest
      (next.1, (if step.2.2 then 1 else 0) + next.2)

/-! ## Helper lemmas about the cache model -/

theorem lookup_invalidate {β : Type} (c : List (String × β)) (k : String) :
    List.lookup k (invalidate c k) = none := by
  induction c with
  | nil => rfl
  | cons p rest ih =>
      by_cases h : p.1 = k
      · have h1 : (p.1 == k) = true := by simpa [beq_iff_eq] using h
        simpa [invalidate, List.filter, h1] using ih
      · have h1 : (p.1 == k) = false := by simpa [beq_iff_eq] using h
        have h2 : (k == p.1) = false := by simpa [beq_iff_eq] using (Ne.symm h)
        obtain ⟨k0, e0⟩ := p
        simpa [invalidate, List.filter, h1, h2, List.lookup] using ih

theorem getModels_of_lookup_some {ε : Type} {c : Cache} {b : String} {d : CacheEntry}
    (hd : List.lookup b c = some d) (now : Int) (fetch : Except ε (List String)) :
    getModels now c b fetch =
      if now - d.timestamp < d.ttl then (Except.ok d.models, c, false)
      else refreshPath now c b fetch (some d) := by
  unfold getModels
  rw [hd]

theorem getModels_of_lookup_none {ε : Type} {c : Cache} {b : String}
    (hd : List.lookup b c = none) (now : Int) (fetch : Except ε (List String)) :
    getModels now c b fetch = refreshPath now c b fetch none := by
  unfold getModels
  rw [hd]

/-! ## Claim C1 -/

/-- C1 (amended): if the cache holds an entry for baseURL whose age
    (now - fetchedAt) is strictly below its ttl, then getModels returns that
    entry, does not invoke fetchFn, and leaves the cache unchanged;
    consequently a whole sequence of getModels calls for that base URL at
    times inside the TTL window of the entry invokes the fetch function zero
    times and leaves the cache unchanged. -/
theorem getModels_cache_hit_economy {ε : Type} (c : Cache) (b : String) (d : CacheEntry)
    (hd : List.lookup b c = some d) :
    (∀ (now : Int) (fetch : Except ε (List String)), now - d.timestamp < d.ttl →
        getModels now c b fetch = (Except.ok d.models, c, false)) ∧
    (∀ calls : List (Int × Except ε (List String)),
        (∀ p ∈ calls, p.1 - d.timestamp < d.ttl) →
        runGetModels b c calls = (c, 0)) := by
  have hhit : ∀ (now : Int) (fetch : Except ε (List String)), now - d.timestamp < d.ttl →
      getModels now c b fetch = (Except.ok d.models, c, false) := by
    intro now fetch hfresh
    rw [getModels_of_lookup_some hd, if_pos hfresh]
  refine ⟨hhit, ?_⟩
  intro calls hcalls
  induction calls with
  | nil => rfl
  | cons p rest ih =>
      obtain ⟨t, f⟩ := p
      have hfresh := hcalls (t, f) (List.mem_cons_self _ _)
      have hrest : ∀ q ∈ rest, q.1 - d.timestamp < d.ttl := fun q hq =>
        hcalls q (List.mem_cons_of_mem _ hq)
      simp only [runGetModels, hhit t f hfresh, ih hrest]
      simp

/-- C1 counterexample: with an empty cache and a fetch function that fails,
    two getModels calls one millisecond apart (well inside one TTL window,
    DEFAULT_TTL = 15000) invoke the underlying fetch function twice, so the
    claimed bound of at most one fetch per TTL window over any call sequence
    is violated. -/
theorem getModels_two_fetches_in_one_window :
    ((1 : Int) - 0 < DEFAULT_TTL) ∧
    (runGetModels "http://127.0.0.1:1234" ([] : Cache)
        [(0, Except.error "network error"), (1, Except.error "network error")]).2 = 2 :=
  ⟨by decide, rfl⟩

/-- C1 witness: a concrete fresh entry is served from the cache with no fetch. -/
theorem getModels_cache_hit_economy_witness :
    getModels 1 [("u", ⟨["m"], 0, 15000⟩)] "u" (Except.error "boom")
        = (Except.ok ["m"], [("u", ⟨["m"], 0, 15000⟩)], false) ∧
    runGetModels "u" [("u", ⟨["m"], 0, 15000⟩)]
        [((1 : Int), Except.error "boom"), ((2 : Int), Except.error "boom")]
        = ([("u", ⟨["m"], 0, 15000⟩)], 0) := by
  have h := getModels_cache_hit_economy (ε := String)
    [("u", ⟨["m"], 0, 15000⟩)] "u" ⟨["m"], 0, 15000⟩ (by decide)
  exact ⟨h.1 1 (Except.error "boom") (by decide),
         h.2 [((1 : Int), Except.error "boom"), ((2 : Int), Except.error "boom")]
           (by decide)⟩

/-! ## Claim C2 -/

theorem getModels_some_entry_result {ε : Type} (now : Int) (c : Cache) (b : String)
    (e : ε) (d : CacheEntry) (hd : List.lookup b c = some d) :
    (getModels now c b (Except.error e)).1 = Except.ok d.models := by
  rw [getModels_of_lookup_some hd]
  by_cases hfresh : now - d.timestamp < d.ttl
  · rw [if_pos hfresh]
  · rw [if_neg hfresh]
    simp [refreshPath]

/-- C2: when fetchFn fails, getModels with a prior cache entry returns that
    entry instead of propagating the failure; when the stale entry is older
    than five times its ttl it is additionally evicted, otherwise the cache
    is left unchanged; with no prior entry the failure is propagated. -/
theorem getModels_stale_fallback {ε : Type} (now : Int) (c : Cache) (b : String) (e : ε) :
    (∀ d : CacheEntry, List.lookup b c = some d →
        (getModels now c b (Except.error e)).1 = Except.ok d.models) ∧
    (∀ d : CacheEntry, List.lookup b c = some d → d.ttl ≤ now - d.timestamp →
        now - d.timestamp > d.ttl * 5 →
        List.lookup b (getModels now c b (Except.error e)).2.1 = none) ∧
    (∀ d : CacheEntry, List.lookup b c = some d → d.ttl ≤ now - d.timestamp →
        ¬ now - d.timestamp > d.ttl * 5 →
        (getModels now c b (Except.error e)).2.1 = c) ∧
    (List.lookup b c = none →
        getModels now c b (Except.error e) = (Except.error e, c, true)) := by
  refine ⟨fun d hd => getModels_some_entry_result now c b e d hd, ?_, ?_, ?_⟩
  · intro d hd hstale hold
    rw [getModels_of_lookup_some hd, if_neg (by omega)]
    simp only [refreshPath, if_pos hold]
    exact lookup_invalidate c b
  · intro d hd hstale hold
    rw [getModels_of_lookup_some hd, if_neg (by omega)]
    simp [refreshPath, hold]
  · intro hd
    rw [getModels_of_lookup_none hd]
    rfl

/-- C2 witness: a concrete expired entry (age 20, ttl 15) is served on fetch
    failure with the cache unchanged; with an empty cache the failure is
    propagated. -/
theorem getModels_stale_fallback_witness :
    (getModels 20 [("u", ⟨["m"], 0, 15⟩)] "u" (Except.error "netfail")).1 = Except.ok ["m"] ∧
    (getModels 20 [("u", ⟨["m"], 0, 15⟩)] "u" (Except.error "netfail")).2.1
        = [("u", ⟨["m"], 0, 15⟩)] ∧
    getModels 20 ([] : Cache) "u" (Except.error "netfail")
        = (Except.error "netfail", ([] : Cache), true) := by
  have h := getModels_stale_fallback (ε := String) 20 [("u", ⟨["m"], 0, 15⟩)] "u" "netfail"
  have h0 := getModels_stale_fallback (ε := String) 20 ([] : Cache) "u" "netfail"
  exact ⟨h.1 ⟨["m"], 0, 15⟩ (by decide),
         h.2.2.1 ⟨["m"], 0, 15⟩ (by decide) (by decide) (by decide),
         h0.2.2.2 (by decide)⟩

/-! ## Claim C10 -/

/-- C10: forceRefresh invalidates the entry before fetching, so a failing
    fetch leaves the cache with no entry for the base URL and the failure is
    propagated, even though plain getModels would have returned the models of
    any entry that was present beforehand. -/
theorem forceRefresh_not_atomic {ε : Type} (now : Int) (c : Cache) (b : String) (e : ε) :
    (forceRefresh now c b (Except.error e)).1 = Except.error e ∧
    List.lookup b (forceRefresh now c b (Except.error e)).2.1 = none ∧
    (∀ d : CacheEntry, List.lookup b c = some d →
        (getModels now c b (Except.error e)).1 = Except.ok d.models) := by
  have herase : List.lookup b (invalidate c b) = none := lookup_invalidate c b
  have hfr : forceRefresh now c b (Except.error e)
      = (Except.error e, invalidate c b, true) := by
    unfold forceRefresh
    rw [getModels_of_lookup_none herase]
    rfl
  refine ⟨by rw [hfr], by rw [hfr]; exact herase, ?_⟩
  exact fun d hd => getModels_some_entry_result now c b e d hd

/-- C10 witness: with a fresh, valid entry for the key, a failing forceRefresh
    propagates the error and leaves no entry, while plain getModels would have
    returned the cached models. -/
theorem forceRefresh_not_atomic_witness :
    (forceRefresh 1 [("u", ⟨["m"], 0, 15000⟩)] "u" (Except.error "boom")).1
        = Except.error "boom" ∧
    List.lookup "u" (forceRefresh 1 [("u", ⟨["m"], 0, 15000⟩)] "u"
        (Except.error "boom")).2.1 = none ∧
    (getModels 1 [("u", ⟨["m"], 0, 15000⟩)] "u" (Except.error "boom")).1
        = Except.ok ["m"] := by
  have h := forceRefresh_not_atomic (ε := String) 1 [("u", ⟨["m"], 0, 15000⟩)] "u" "boom"
  exact ⟨h.1, h.2.1, h.2.2 ⟨["m"], 0, 15000⟩ (by decide)⟩

/-! ## Claim C4 -/

theorem cleanup_clears_of_over_capacity (now : Int) (c : Cache)
    (h : MAX_CACHE_SIZE < c.length) : cleanup now c = [] := by
  have hall : ∀ p ∈ c,
      (decide (now - p.2.timestamp > p.2.ttl * 5) || decide (c.length > MAX_CACHE_SIZE))
        = true := by
    intro p _
    simp [h]
  have hfilter :
      c.filter (fun p =>
        decide (now - p.2.timestamp > p.2.ttl * 5) || decide (c.length > MAX_CACHE_SIZE))
        = c :=
    List.filter_eq_self.mpr hall
  simp only [cleanup, hfilter]
  refine List.filter_eq_nil_iff.mpr ?_
  intro p hp
  have hmem : p.1 ∈ c.map Prod.fst := List.mem_map.mpr ⟨p, hp, rfl⟩
  simp only [Bool.not_eq_true', Bool.not_eq_false]
  exact List.elem_eq_true_of_mem hmem

/-- C4 (amended): when the entry count exceeds the maximum, the cleanup pass
    evicts every entry, because the over-capacity condition is evaluated
    against the unchanged size while scanning, so each entry is collected for
    deletion; in particular an insertion by getModels that pushes the cache
    over capacity leaves the cache empty (at or under capacity, but with no
    survivors at all). -/
theorem cleanup_over_capacity_clears {ε : Type} (now : Int) (c : Cache) (b : String)
    (ms : List String) :
    (MAX_CACHE_SIZE < c.length → cleanup now c = []) ∧
    (List.lookup b c = none →
        MAX_CACHE_SIZE < (setEntry c b ⟨ms, now, DEFAULT_TTL⟩).length →
        (getModels now c b (Except.ok ms : Except ε (List String))).2.1 = []) := by
  refine ⟨cleanup_clears_of_over_capacity now c, ?_⟩
  intro hnone hover
  rw [getModels_of_lookup_none hnone]
  simp only [refreshPath]
  rw [if_pos hover]
  exact cleanup_clears_of_over_capacity now _ hover

/-- Concrete cache of 50 fresh entries with keys 0 to 49 and increasing
    timestamps, used to exhibit the cleanup behaviour. -/
def cexCache : Cache :=
  (List.range 50).map (fun i => (toString i, ⟨["m"], (i : Int), 15000⟩))

/-- C4 counterexample: inserting a 51st entry through getModels triggers the
    cleanup, and the cleanup deletes every entry, including the newest entry
    with key 49, which is neither expired (age 1, ttl 15000) nor among the
    oldest overflow, contradicting the claim that such entries survive. -/
theorem cleanup_evicts_everything_cex :
    cexCache.length = 50 ∧
    List.lookup "49" cexCache = some ⟨["m"], 49, 15000⟩ ∧
    ((50 : Int) - 49 < 15000) ∧
    (setEntry cexCache "k50" ⟨["m"], 50, DEFAULT_TTL⟩).length = 51 ∧
    (getModels 50 cexCache "k50" (Except.ok ["m"] : Except String (List String))).2.1
      = [] := by
  refine ⟨by decide, by decide, by decide, by decide, by decide⟩

/-- C4 witness: the amended theorem applied to the concrete 50-entry cache. -/
theorem cleanup_over_capacity_clears_witness :
    cleanup 50 (setEntry cexCache "k50" ⟨["m"], 50, DEFAULT_TTL⟩) = [] ∧
    (getModels 50 cexCache "k50" (Except.ok ["m"] : Except String (List String))).2.1
      = [] := by
  have h1 := @cleanup_over_capacity_clears String 50
    (setEntry cexCache "k50" ⟨["m"], 50, DEFAULT_TTL⟩) "k50" ["m"]
  have h2 := @cleanup_over_capacity_clears String 50 cexCache "k50" ["m"]
  exact ⟨h1.1 (by decide), h2.2 (by decide) (by decide)⟩

/-! ## Claim C3: reference-level model of the array aliasing behaviour

  JS arrays are mutable references.  The heap maps a reference (a Nat) to the
  array contents; a cache entry stores a reference.  On the refresh path the
  source stores a copy of the fetched array (the spread [...models]) and
  returns the original; on the cache-hit path and the stale-fallback path it
  returns cached.models, the reference stored in the entry, without copying. -/

structure EntryRef where
  modelsRef : Nat
  timestamp : Int
  ttl : Int
deriving DecidableEq

abbrev CacheR := List (String × EntryRef)

abbrev Heap := List (List String)

/-- Reads the array behind a reference. -/
def readRef (h : Heap) (r : Nat) : List String := h.getD r []

/-- Models an in-place mutation of the array behind a reference, as a caller
    of getModels can perform on the returned array. -/
def writeRef (h : Heap) (r : Nat) (v : List String) : Heap := h.set r v

/-- Allocates a fresh array holding the given contents. -/
def allocRef (h : Heap) (v : List String) : Heap × Nat := (h ++ [v], h.length)

/-- Models ModelStatusCache.cleanup at the reference level. -/
def cleanupR (now : Int) (c : CacheR) : CacheR :=
  let toDelete :=
    (c.filter (fun p =>
      decide (now - p.2.timestamp > p.2.ttl * 5) || decide (c.length > MAX_CACHE_SIZE))).map Prod.fst
  c.filter (fun p => !(toDelete.contains p.1))

/-- Models the refresh path of getModels at the reference level: on success a
    copy of the fetched array is allocated and stored, and the original
    reference from fetchFn is returned; on failure with a stale entry the
    stored reference itself is returned. -/
def refreshPathR (now : Int) (h : Heap) (c : CacheR) (baseURL : String)
    (fetch : Except String Nat) (cached : Option EntryRef) :
    Except String Nat × Heap × CacheR × Bool :=
  match fetch with
  | Except.ok r =>
      let copy := allocRef h (readRef h r)
      let c1 := setEntry c baseURL ⟨copy.2, now, DEFAULT_TTL⟩
      let c2 := if c1.length > MAX_CACHE_SIZE then cleanupR now c1 else c1
      (Except.ok r, copy.1, c2, true)
  | Except.error e =>
      match cached with
      | some d =>
          let c1 := if now - d.timestamp > d.ttl * 5 then invalidate c baseURL else c
          (Except.ok d.modelsRef, h, c1, true)
      | none => (Except.error e, h, c, true)

/-- Models ModelStatusCache.getModels at the reference level: the cache-hit
    path returns cached.models, the very reference stored in the entry. -/
def getModelsR (now : Int) (h : Heap) (c : CacheR) (baseURL : String)
    (fetch : Except String Nat) : Except String Nat × Heap × CacheR × Bool :=
  match List.lookup baseURL c with
  | some d =>
      if now - d.timestamp < d.ttl then (Except.ok d.modelsRef, h, c, false)
      else refreshPathR now h c baseURL fetch (some d)
  | none => refreshPathR now h c baseURL fetch none

/-- C3 (code bug): the cache-hit path of getModels returns the stored array
    itself, not a copy.  Concretely: a hit returns reference 0, the reference
    held by the cache entry; after the caller mutates the array behind that
    reference, a second hit within the TTL window observes the mutated list,
    so the cached models did not stay unchanged as the claim (and the comment
    "Create copy to prevent mutations" in the source) requires. -/
theorem getModels_hit_returns_alias :
    (getModelsR 1 [["llama-3.2-3b-instruct"]] [("http://127.0.0.1:1234", ⟨0, 0, 15000⟩)]
        "http://127.0.0.1:1234" (Except.error "unused"))
      = (Except.ok 0, [["llama-3.2-3b-instruct"]],
         [("http://127.0.0.1:1234", ⟨0, 0, 15000⟩)], false) ∧
    (getModelsR 2 (writeRef [["llama-3.2-3b-instruct"]] 0 ["llama-3.2-3b-instruct", "mutant"])
        [("http://127.0.0.1:1234", ⟨0, 0, 15000⟩)] "http://127.0.0.1:1234"
        (Except.error "unused")).1
      = Except.ok 0 ∧
    readRef (writeRef [["llama-3.2-3b-instruct"]] 0 ["llama-3.2-3b-instruct", "mutant"]) 0
      = ["llama-3.2-3b-instruct", "mutant"] ∧
    (["llama-3.2-3b-instruct", "mutant"] : List String) ≠ ["llama-3.2-3b-instruct"] :=
  ⟨rfl, rfl, rfl, by decide⟩

/-! ## Claim C5: retryWithBackoff (src/utils/index.ts)

  The operation is modelled by the sequence of its outcomes: outcomes i is
  what the i-th invocation (zero based) returns or throws.  retryFrom returns
  the result wrapper of the source, the number of invocations performed, and
  the list of backoff delays awaited, in order. -/

structure RetryResult (α : Type) where
  success : Bool
  result : Option α
  error : Option String
deriving DecidableEq

/-- Models the loop of retryWithBackoff from a given attempt index, with
    remaining = maxRetries - attempt further retries allowed: invoke the
    operation, return the success wrapper on success; on failure return the
    failure wrapper when no retries remain, otherwise wait
    baseDelay * 2 ^ attempt and continue. -/
def retryFrom {α : Type} (outcomes : Nat → Except String α) (baseDelay : Nat) :
    Nat → Nat → RetryResult α × Nat × List Nat
  | remaining, attempt =>
    match outcomes attempt with
    | Except.ok v => (⟨true, some v, none⟩, 1, [])
    | Except.error e =>
        match remaining with
        | 0 => (⟨false, none, some e⟩, 1, [])
        | r + 1 =>
            let next := retryFrom outcomes baseDelay r (attempt + 1)
            (next.1, next.2.1 + 1, baseDelay * 2 ^ attempt :: next.2.2)

/-- Models retryWithBackoff(operation, maxRetries, baseDelay). -/
def retryWithBackoff {α : Type} (outcomes : Nat → Except String α)
    (maxRetries baseDelay : Nat) : RetryResult α × Nat × List Nat :=
  retryFrom outcomes baseDelay maxRetries 0

theorem retryFrom_ok {α : Type} (outcomes : Nat → Except String α) (bd r attempt : Nat)
    (v : α) (h : outcomes attempt = Except.ok v) :
    retryFrom outcomes bd r attempt = (⟨true, some v, none⟩, 1, []) := by
  cases r <;> · unfold retryFrom; rw [h]

theorem retryFrom_err_zero {α : Type} {outcomes : Nat → Except String α} {attempt : Nat}
    {e : String} (bd : Nat) (h : outcomes attempt = Except.error e) :
    retryFrom outcomes bd 0 attempt = (⟨false, none, some e⟩, 1, []) := by
  unfold retryFrom; rw [h]

theorem retryFrom_err_succ {α : Type} {outcomes : Nat → Except String α} {attempt : Nat}
    {e : String} (bd r : Nat) (h : outcomes attempt = Except.error e) :
    retryFrom outcomes bd (r + 1) attempt =
      ((retryFrom outcomes bd r (attempt + 1)).1,
       (retryFrom outcomes bd r (attempt + 1)).2.1 + 1,
       bd * 2 ^ attempt :: (retryFrom outcomes bd r (attempt + 1)).2.2) := by
  conv_lhs => unfold retryFrom; rw [h]

theorem delays_shift (bd attempt k : Nat) :
    bd * 2 ^ attempt :: (List.range k).map (fun i => bd * 2 ^ (attempt + 1 + i))
      = (List.range (k + 1)).map (fun i => bd * 2 ^ (attempt + i)) := by
  have h0 : bd * 2 ^ (attempt + 0) = bd * 2 ^ attempt := by rw [Nat.add_zero]
  rw [List.range_succ_eq_map, List.map_cons, List.map_map, h0]
  congr 1
  refine List.map_congr_left fun a _ => ?_
  simp only [Function.comp_apply]
  rw [show attempt + 1 + a = attempt + (a + 1) from by omega]

theorem retryFrom_first_ok {α : Type} (outcomes : Nat → Except String α) (bd : Nat) :
    ∀ (k r attempt : Nat) (v : α), k ≤ r → outcomes (attempt + k) = Except.ok v →
    (∀ i, i < k → ∃ e, outcomes (attempt + i) = Except.error e) →
    retryFrom outcomes bd r attempt =
      (⟨true, some v, none⟩, k + 1, (List.range k).map (fun i => bd * 2 ^ (attempt + i))) := by
  intro k
  induction k with
  | zero =>
      intro r attempt v _ hok _
      simpa using retryFrom_ok outcomes bd r attempt v (by simpa using hok)
  | succ k ih =>
      intro r attempt v hkr hok herr
      obtain ⟨e0, he0⟩ := herr 0 (Nat.succ_pos _)
      have he0a : outcomes attempt = Except.error e0 := by simpa using he0
      obtain ⟨r1, rfl⟩ : ∃ r1, r = r1 + 1 := by
        cases r with
        | zero => exact absurd hkr (by omega)
        | succ r1 => exact ⟨r1, rfl⟩
      have hrec := ih r1 (attempt + 1) v (by omega)
        (by rw [show attempt + 1 + k = attempt + (k + 1) from by omega]; exact hok)
        (fun i hi => by
          rw [show attempt + 1 + i = attempt + (i + 1) from by omega]
          exact herr (i + 1) (by omega))
      rw [retryFrom_err_succ bd r1 he0a, hrec]
      exact congrArg _ (congrArg _ (delays_shift bd attempt k))

theorem retryFrom_all_fail {α : Type} (outcomes : Nat → Except String α) (bd : Nat) :
    ∀ (r attempt : Nat), (∀ i, i ≤ r → ∃ e, outcomes (attempt + i) = Except.error e) →
    ∃ e, outcomes (attempt + r) = Except.error e ∧
      retryFrom outcomes bd r attempt =
        (⟨false, none, some e⟩, r + 1, (List.range r).map (fun i => bd * 2 ^ (attempt + i))) := by
  intro r
  induction r with
  | zero =>
      intro attempt herr
      obtain ⟨e0, he0⟩ := herr 0 (Nat.le_refl _)
      have he0a : outcomes attempt = Except.error e0 := by simpa using he0
      exact ⟨e0, he0, by simpa using retryFrom_err_zero bd he0a⟩
  | succ r ih =>
      intro attempt herr
      obtain ⟨e0, he0⟩ := herr 0 (Nat.zero_le _)
      have he0a : outcomes attempt = Except.error e0 := by simpa using he0
      obtain ⟨e, he, heq⟩ := ih (attempt + 1) (fun i hi => by
        rw [show attempt + 1 + i = attempt + (i + 1) from by omega]
        exact herr (i + 1) (by omega))
      refine ⟨e, by rw [show attempt + (r + 1) = attempt + 1 + r from by omega]; exact he, ?_⟩
      rw [retryFrom_err_succ bd r he0a, heq]
      exact congrArg _ (congrArg _ (delays_shift bd attempt r))

/-- C5: retryWithBackoff invokes the operation exactly (first success index)
    plus one times when some attempt within the bound succeeds, returning the
    success wrapper with the delays baseDelay * 2 ^ i for the i failed
    attempts before it; when every attempt fails it performs exactly
    maxRetries + 1 invocations, waits baseDelay * 2 ^ i after failed attempt
    i for i < maxRetries with no wait after the last attempt, and returns the
    failure wrapper instead of raising; for maxRetries = 2 and baseDelay =
    500 an always-failing operation gives 3 invocations and backoff delays
    500 and 1000, totalling 1500. -/
theorem retryWithBackoff_spec {α : Type} (outcomes : Nat → Except String α)
    (maxRetries baseDelay : Nat) :
    (∀ (k : Nat) (v : α), k ≤ maxRetries → outcomes k = Except.ok v →
        (∀ i, i < k → ∃ e, outcomes i = Except.error e) →
        retryWithBackoff outcomes maxRetries baseDelay =
          (⟨true, some v, none⟩, k + 1, (List.range k).map (fun i => baseDelay * 2 ^ i))) ∧
    ((∀ i, i ≤ maxRetries → ∃ e, outcomes i = Except.error e) →
        ∃ e, outcomes maxRetries = Except.error e ∧
          retryWithBackoff outcomes maxRetries baseDelay =
            (⟨false, none, some e⟩, maxRetries + 1,
             (List.range maxRetries).map (fun i => baseDelay * 2 ^ i))) ∧
    (retryWithBackoff (fun _ => (Except.error "fail" : Except String Nat)) 2 500
        = (⟨false, none, some "fail"⟩, 3, [500, 1000]) ∧
     ([500, 1000] : List Nat).sum = 1500) := by
  refine ⟨?_, ?_, by decide, by decide⟩
  · intro k v hk hok herr
    have h := retryFrom_first_ok outcomes baseDelay k maxRetries 0 v hk
      (by simpa using hok) (fun i hi => by simpa using herr i hi)
    simpa [retryWithBackoff] using h
  · intro herr
    obtain ⟨e, he, heq⟩ := retryFrom_all_fail outcomes baseDelay maxRetries 0
      (fun i hi => by simpa using herr i hi)
    exact ⟨e, by simpa using he, by simpa [retryWithBackoff] using heq⟩

/-- C5 witness: a concrete operation failing once then succeeding performs
    exactly two invocations with a single 500 ms backoff. -/
theorem retryWithBackoff_spec_witness :
    retryWithBackoff (fun i => if i = 0 then Except.error "boom" else Except.ok 7) 2 500
      = (⟨true, some 7, none⟩, 2, [500]) := by
  have h := (retryWithBackoff_spec (fun i => if i = 0 then Except.error "boom"
      else Except.ok 7) 2 500).1 1 7 (by omega) (by simp)
    (fun i hi => ⟨"boom", by
      rw [show i = 0 from by omega]
      simp⟩)
  simpa using h

/-! ## Claim C6: categorizeError (src/utils/index.ts)

  The raw error value enters as its JS stringification String(error); the
  function lowercases it and tests fixed substrings in order. -/

inductive ErrorType where
  | offline | not_found | network | permission | timeout | unknown
deriving DecidableEq

inductive Severity where
  | low | medium | high | critical
deriving DecidableEq

structure ModelValidationError where
  etype : ErrorType
  severity : Severity
  message : String
  canRetry : Bool
  autoFixAvailable : Bool
deriving DecidableEq

/-- Models categorizeError(error, context): case-insensitive substring
    matching on the stringified error, first match wins. -/
def categorizeError (error : String) (baseURL modelId : String) : ModelValidationError :=
  let errorStr := lowerStr error
  if strIncludes errorStr "econnrefused" || strIncludes errorStr "fetch failed"
      || strIncludes errorStr "network" then
    ⟨ErrorType.offline, Severity.critical,
     "Cannot connect to LM Studio at " ++ baseURL
       ++ ". Ensure LM Studio is running and server is active.", true, true⟩
  else if strIncludes errorStr "timeout" || strIncludes errorStr "aborted" then
    ⟨ErrorType.timeout, Severity.medium,
     "Request to LM Studio timed out. This might happen with large models or slow systems.",
     true, false⟩
  else if strIncludes errorStr "404" || strIncludes errorStr "not found" then
    ⟨ErrorType.not_found, Severity.high,
     "Model \x27" ++ modelId ++ "\x27 not found. Check if model is installed in LM Studio.",
     false, false⟩
  else if strIncludes errorStr "401" || strIncludes errorStr "403"
      || strIncludes errorStr "unauthorized" then
    ⟨ErrorType.permission, Severity.high,
     "Authentication or permission issue with LM Studio. Check your configuration.",
     false, false⟩
  else
    ⟨ErrorType.unknown, Severity.medium, "Unexpected error: " ++ errorStr, true, false⟩

/-- Modelled from the spec: the classification table of section 4.4, giving
    for a lowercased error string the tuple (type, severity, canRetry,
    autoFixAvailable), first matching row wins, with the unknown row when no
    pattern matches. -/
def classifyTableSpec (lowered : String) : ErrorType × Severity × Bool × Bool :=
  if strIncludes lowered "econnrefused" || strIncludes lowered "fetch failed"
      || strIncludes lowered "network" then
    (ErrorType.offline, Severity.critical, true, true)
  else if strIncludes lowered "timeout" || strIncludes lowered "aborted" then
    (ErrorType.timeout, Severity.medium, true, false)
  else if strIncludes lowered "404" || strIncludes lowered "not found" then
    (ErrorType.not_found, Severity.high, false, false)
  else if strIncludes lowered "401" || strIncludes lowered "403"
      || strIncludes lowered "unauthorized" then
    (ErrorType.permission, Severity.high, false, false)
  else
    (ErrorType.unknown, Severity.medium, true, false)

/-- C6: categorizeError realizes exactly the fixed classification table of
    the spec, applied to the lowercased stringified error (case-insensitive
    substring matching with first-match-wins precedence), and its result
    depends only on the lowercased error string together with the context,
    so it is a pure function of its inputs. -/
theorem categorizeError_matches_table (e baseURL modelId : String) :
    (((categorizeError e baseURL modelId).etype,
      (categorizeError e baseURL modelId).severity,
      (categorizeError e baseURL modelId).canRetry,
      (categorizeError e baseURL modelId).autoFixAvailable)
        = classifyTableSpec (lowerStr e)) ∧
    (∀ e2 : String, lowerStr e2 = lowerStr e →
        categorizeError e2 baseURL modelId = categorizeError e baseURL modelId) := by
  constructor
  · simp only [categorizeError, classifyTableSpec]
    split_ifs <;> rfl
  · intro e2 h2
    unfold categorizeError
    rw [h2]

/-- C6 witness: a mixed-case timeout message classifies as the timeout row. -/
theorem categorizeError_matches_table_witness :
    ((categorizeError "Request TIMEOUT after 3000ms" "http://127.0.0.1:1234" "m").etype,
     (categorizeError "Request TIMEOUT after 3000ms" "http://127.0.0.1:1234" "m").severity,
     (categorizeError "Request TIMEOUT after 3000ms" "http://127.0.0.1:1234" "m").canRetry,
     (categorizeError "Request TIMEOUT after 3000ms" "http://127.0.0.1:1234" "m").autoFixAvailable)
      = classifyTableSpec (lowerStr "Request TIMEOUT after 3000ms") ∧
    categorizeError "request timeout AFTER 3000MS" "http://127.0.0.1:1234" "m"
      = categorizeError "Request TIMEOUT after 3000ms" "http://127.0.0.1:1234" "m" := by
  have h := categorizeError_matches_table "Request TIMEOUT after 3000ms"
    "http://127.0.0.1:1234" "m"
  exact ⟨h.1, h.2 "request timeout AFTER 3000MS" (by decide)⟩

/-! ## Claim C7: fetchModelsDirect and discoverLlamaCppModels
  (src/utils/llama-cpp-api.ts)

  A TransportOutcome is what the single HTTP GET produces: either a response
  (with its ok flag, status, statusText and the optional data array of model
  ids, absent when the body has no data field) or a thrown failure such as a
  timeout abort or a connection refusal. -/

inductive TransportOutcome where
  | response (ok : Bool) (status : Nat) (statusText : String) (ids : Option (List String))
  | failure (err : String)
deriving DecidableEq

/-- Models the try block of fetchModelsDirect: a thrown fetch failure
    propagates, a non-ok response throws an HTTP error, otherwise the model
    ids are returned (empty when the data array is absent). -/
def fetchModelsDirectCore (t : TransportOutcome) : Except String (List String) :=
  match t with
  | TransportOutcome.failure e => Except.error e
  | TransportOutcome.response ok status statusText ids =>
      if ok then Except.ok (ids.getD [])
      else Except.error ("HTTP " ++ toString status ++ ": " ++ statusText)

/-- Models fetchModelsDirect(baseURL): the catch-all around the try block
    turns every failure, including timeouts and connection failures, into an
    empty list. -/
def fetchModelsDirect (t : TransportOutcome) : List String :=
  match fetchModelsDirectCore t with
  | Except.ok ms => ms
  | Except.error _ => []

/-- Models the fetch function the validation path hands to the cache:
    getLoadedModels passes fetchModelsDirect, which never throws, so the
    outcome the cache sees is always a success. -/
def validationFetchOutcome (t : TransportOutcome) : Except String (List String) :=
  Except.ok (fetchModelsDirect t)

/-- Models discoverLlamaCppModels(baseURL): a non-ok response yields an empty
    list, but a thrown failure is rethrown with a distinguishable message. -/
def discoverLlamaCppModels (t : TransportOutcome) : Except String (List String) :=
  match t with
  | TransportOutcome.failure e =>
      Except.error ("Failed to discover models: " ++ e)
  | TransportOutcome.response ok _ _ ids =>
      if ok then Except.ok (ids.getD []) else Except.ok []

/-- C7 counterexample: on a timeout the model fetch used by the validation
    path returns an empty list, and the outcome the cache and retry path
    observe is a successful empty result, not a distinguishable failure. -/
theorem fetchModelsDirect_swallows_timeout :
    fetchModelsDirect (TransportOutcome.failure "timeout") = [] ∧
    validationFetchOutcome (TransportOutcome.failure "timeout") = Except.ok [] ∧
    validationFetchOutcome (TransportOutcome.failure "fetch failed")
      ≠ Except.error "fetch failed" := by
  refine ⟨rfl, rfl, fun h => nomatch h⟩

/-- C7 (amended): the fetch operation used by the validation path
    (fetchModelsDirect, wrapped by getLoadedModels) catches every transport
    failure and returns an empty list, so the raw failure never reaches the
    retry and classification path; it is discoverLlamaCppModels, used by the
    config-enhancement path, that rethrows a distinguishable cause. -/
theorem fetchModelsDirect_empty_on_failure (e : String) :
    fetchModelsDirect (TransportOutcome.failure e) = [] ∧
    validationFetchOutcome (TransportOutcome.failure e) = Except.ok [] ∧
    discoverLlamaCppModels (TransportOutcome.failure e)
      = Except.error ("Failed to discover models: " ++ e) :=
  ⟨rfl, rfl, rfl⟩

/-! ## Claim C9: normalizeBaseURL and buildAPIURL (src/utils/llama-cpp-api.ts)

  URLs are modelled as character lists.  normalizeBaseURL first removes all
  trailing slash characters (the replace with the anchored slash-run pattern)
  and then removes a single trailing /v1 (the endsWith test with slice). -/

/-- Models baseURL.replace of the anchored trailing-slash-run pattern with
    the empty string: drop every trailing slash. -/
def stripTrailingSlashes (s : List Char) : List Char :=
  (s.reverse.dropWhile (fun c => c == '/')).reverse

/-- Models normalizeBaseURL(baseURL). -/
def normalizeBaseURL (s : List Char) : List Char :=
  let n := stripTrailingSlashes s
  if endsWithL n ['/', 'v', '1'] then n.take (n.length - 3) else n

/-- Models buildAPIURL(baseURL, endpoint): normalize, then append. -/
def buildAPIURL (baseURL endpoint : List Char) : List Char :=
  normalizeBaseURL baseURL ++ endpoint

theorem dropWhile_slash_reverse {b : List Char} (h : endsWithL b ['/'] = false) :
    b.reverse.dropWhile (fun c => c == '/') = b.reverse := by
  cases hrev : b.reverse with
  | nil => simp
  | cons c t =>
      have hne : ¬ ('/' : Char) = c := by
        intro he
        unfold endsWithL at h
        rw [hrev] at h
        simp [isPrefixL] at h
        exact h he
      have hc : (c == '/') = false :=
        beq_eq_false_iff_ne.mpr (fun he => hne he.symm)
      rw [List.dropWhile_cons]
      simp [hc]

theorem strip_of_not_slash {b : List Char} (h : endsWithL b ['/'] = false) :
    stripTrailingSlashes b = b := by
  unfold stripTrailingSlashes
  rw [dropWhile_slash_reverse h, List.reverse_reverse]

theorem strip_append_slash {b : List Char} (h : endsWithL b ['/'] = false) :
    stripTrailingSlashes (b ++ ['/']) = b := by
  unfold stripTrailingSlashes
  rw [List.reverse_append]
  simp [List.dropWhile_cons, dropWhile_slash_reverse h]

theorem strip_append_v1 (b : List Char) :
    stripTrailingSlashes (b ++ ['/', 'v', '1']) = b ++ ['/', 'v', '1'] := by
  unfold stripTrailingSlashes
  rw [List.reverse_append]
  simp [List.dropWhile_cons]

theorem strip_append_v1_slash (b : List Char) :
    stripTrailingSlashes (b ++ ['/', 'v', '1', '/']) = b ++ ['/', 'v', '1'] := by
  unfold stripTrailingSlashes
  rw [List.reverse_append]
  simp [List.dropWhile_cons]

theorem endsWith_append_v1 (b : List Char) :
    endsWithL (b ++ ['/', 'v', '1']) ['/', 'v', '1'] = true := by
  unfold endsWithL
  rw [List.reverse_append]
  simp [isPrefixL]

theorem take_append_v1 (b : List Char) :
    (b ++ ['/', 'v', '1']).take ((b ++ ['/', 'v', '1']).length - 3) = b := by
  have hl : (b ++ ['/', 'v', '1']).length - 3 = b.length := by simp
  rw [hl]
  exact List.take_left b ['/', 'v', '1']

theorem normalize_base {b : List Char} (h1 : endsWithL b ['/'] = false)
    (h2 : endsWithL b ['/', 'v', '1'] = false) : normalizeBaseURL b = b := by
  unfold normalizeBaseURL
  rw [strip_of_not_slash h1]
  simp [h2]

theorem normalize_slash {b : List Char} (h1 : endsWithL b ['/'] = false)
    (h2 : endsWithL b ['/', 'v', '1'] = false) : normalizeBaseURL (b ++ ['/']) = b := by
  unfold normalizeBaseURL
  rw [strip_append_slash h1]
  simp [h2]

theorem normalize_v1 (b : List Char) : normalizeBaseURL (b ++ ['/', 'v', '1']) = b := by
  unfold normalizeBaseURL
  rw [strip_append_v1 b]
  simp [endsWith_append_v1 b, take_append_v1 b]

theorem normalize_v1_slash (b : List Char) :
    normalizeBaseURL (b ++ ['/', 'v', '1', '/']) = b := by
  unfold normalizeBaseURL
  rw [strip_append_v1_slash b]
  simp [endsWith_append_v1 b, take_append_v1 b]

/-- C9: for a base-form URL (no trailing slash, no trailing /v1), buildAPIURL
    produces the same fetch target whether the caller passes the base form,
    the base form with a trailing slash, the base form with a /v1 suffix, or
    the base form with /v1 and a trailing slash: the normalization strips the
    trailing slashes and the /v1 suffix before appending the endpoint. -/
theorem buildAPIURL_suffix_insensitive (b endpoint : List Char)
    (h1 : endsWithL b ['/'] = false) (h2 : endsWithL b ['/', 'v', '1'] = false) :
    buildAPIURL (b ++ ['/']) endpoint = buildAPIURL b endpoint ∧
    buildAPIURL (b ++ ['/', 'v', '1']) endpoint = buildAPIURL b endpoint ∧
    buildAPIURL (b ++ ['/', 'v', '1', '/']) endpoint = buildAPIURL b endpoint := by
  unfold buildAPIURL
  rw [normalize_base h1 h2, normalize_slash h1 h2, normalize_v1 b, normalize_v1_slash b]
  exact ⟨rfl, rfl, rfl⟩

/-- C9 witness: the four spellings of the default llama.cpp base URL produce
    the same models endpoint URL. -/
theorem buildAPIURL_suffix_insensitive_witness :
    buildAPIURL ("http://127.0.0.1:1234".toList ++ ['/']) "/v1/models".toList
      = buildAPIURL "http://127.0.0.1:1234".toList "/v1/models".toList ∧
    buildAPIURL ("http://127.0.0.1:1234".toList ++ ['/', 'v', '1']) "/v1/models".toList
      = buildAPIURL "http://127.0.0.1:1234".toList "/v1/models".toList ∧
    buildAPIURL ("http://127.0.0.1:1234".toList ++ ['/', 'v', '1', '/']) "/v1/models".toList
      = buildAPIURL "http://127.0.0.1:1234".toList "/v1/models".toList :=
  buildAPIURL_suffix_insensitive "http://127.0.0.1:1234".toList "/v1/models".toList
    (by decide) (by decide)

/-! ## Claim C8: findSimilarModels (src/utils/index.ts)

  Identifiers are lowercased and split on dash, underscore and whitespace
  (empty fields are discarded by the filter on truthiness); the score is
  accumulated from an exact-match base, a shared-first-token family bonus,
  per-suffix bonuses found by substring containment, and a token-overlap
  term, then clamped to at most 1.  Scores are modelled as exact rationals
  where the source uses JS floating point; the JS sort comparator on the
  score difference is modelled as a merge sort with the descending-score
  order.  The JS whitespace class also matches some Unicode space code
  points, which are irrelevant to the stated bounds and omitted here. -/

def isSepChar (c : Char) : Bool :=
  c == '-' || c == '_' || c == ' ' || c == '\t' || c == '\n' || c == '\r'
    || c == '\x0b' || c == '\x0c'

/-- Models String.prototype.split on the separator character class: every
    separator occurrence ends a field. -/
def splitFields : List Char → List (List Char)
  | [] => [[]]
  | c :: rest =>
      let fs := splitFields rest
      if isSepChar c then [] :: fs
      else
        match fs with
        | [] => [[c]]
        | f :: fs2 => (c :: f) :: fs2

/-- Models split(...).filter(Boolean): the empty fields are dropped. -/
def tokenize (s : List Char) : List (List Char) :=
  (splitFields s).filter (fun tok => !tok.isEmpty)

def commonSuffixes : List (List Char) :=
  ["3b", "7b", "13b", "70b", "q4", "q8", "instruct", "chat", "base"].map String.toList

structure SimilarModel where
  model : String
  similarity : Rat
  reason : String
deriving DecidableEq

/-- Models the body of the map in findSimilarModels: score one candidate
    against the lowercased target and its token list, accumulating reasons in
    rule order and clamping the similarity to at most 1. -/
def scoreCandidate (target : List Char) (targetTokens : List (List Char))
    (m : String) : SimilarModel :=
  let candidate := m.toList.map Char.toLower
  let candidateTokens := tokenize candidate
  let acc1 : Rat × List String :=
    if candidate == target then (1, ["Exact match"]) else (0, [])
  let acc2 : Rat × List String :=
    match targetTokens.head?, candidateTokens.head? with
    | some tp, some cp =>
        if tp == cp then (acc1.1 + 1/2, acc1.2 ++ ["Same family: " ++ String.mk tp])
        else acc1
    | _, _ => acc1
  let acc3 : Rat × List String :=
    commonSuffixes.foldl
      (fun acc suf =>
        if containsSeq suf target && containsSeq suf candidate then
          (acc.1 + 1/5, acc.2 ++ ["Shared suffix: " ++ String.mk suf])
        else acc) acc2
  let commonTokens := targetTokens.filter (fun tok => candidateTokens.contains tok)
  let acc4 : Rat × List String :=
    if commonTokens.length > 0 then
      (acc3.1 + ((commonTokens.length : Rat)
          / ((Nat.max targetTokens.length candidateTokens.length : Nat) : Rat)) * (3/10),
       acc3.2 ++ ["Common tokens: " ++ String.intercalate ", " (commonTokens.map String.mk)])
    else acc3
  { model := m, similarity := min acc4.1 1, reason := String.intercalate ", " acc4.2 }

/-- Models the sort comparator (a, b) => b.similarity - a.similarity, which
    orders by descending similarity. -/
def simLe (a b : SimilarModel) : Bool := decide (b.similarity ≤ a.similarity)

/-- Models findSimilarModels(targetModel, availableModels): score every
    candidate, keep those scoring above 0.1, sort by descending similarity
    and keep the first 5. -/
def findSimilarModels (targetModel : String) (availableModels : List String) :
    List SimilarModel :=
  let target := targetModel.toList.map Char.toLower
  let targetTokens := tokenize target
  (((availableModels.map (scoreCandidate target targetTokens)).filter
      (fun item => decide ((1 : Rat)/10 < item.similarity))).mergeSort simLe).take 5

theorem simLe_trans (a b c : SimilarModel) (hab : simLe a b) (hbc : simLe b c) :
    simLe a c := by
  simp only [simLe, decide_eq_true_eq] at *
  exact le_trans hbc hab

theorem simLe_total (a b : SimilarModel) : simLe a b || simLe b a := by
  simp only [simLe]
  rcases le_total a.similarity b.similarity with h | h <;> simp [h]

theorem pipeline_sorted (l : List SimilarModel) :
    List.Pairwise (fun a b => b.similarity ≤ a.similarity) ((l.mergeSort simLe).take 5) := by
  have hs : (l.mergeSort simLe).Pairwise (fun a b => simLe a b = true) :=
    List.sorted_mergeSort simLe_trans simLe_total l
  have ht : ((l.mergeSort simLe).take 5).Pairwise (fun a b => simLe a b = true) :=
    List.Pairwise.sublist (List.take_sublist 5 _) hs
  exact ht.imp (fun h => by simpa [simLe] using h)

/-- C8: findSimilarModels returns at most 5 entries, sorted in descending
    similarity order, and every returned similarity s satisfies 1/10 < s and
    s ≤ 1 (candidates at or below 1/10 are filtered out and the accumulated
    score is clamped to 1). -/
theorem findSimilarModels_bounded (t : String) (cands : List String) :
    (findSimilarModels t cands).length ≤ 5 ∧
    List.Pairwise (fun a b => b.similarity ≤ a.similarity) (findSimilarModels t cands) ∧
    (∀ x, x ∈ findSimilarModels t cands →
        (1 : Rat)/10 < x.similarity ∧ x.similarity ≤ 1) := by
  refine ⟨?_, ?_, ?_⟩
  · simp only [findSimilarModels, List.length_take]
    exact min_le_left _ _
  · simp only [findSimilarModels]
    exact pipeline_sorted _
  · simp only [findSimilarModels]
    intro x hx
    have hx1 : x ∈ (cands.map (scoreCandidate (t.toList.map Char.toLower)
        (tokenize (t.toList.map Char.toLower)))).filter
        (fun item => decide ((1 : Rat)/10 < item.similarity)) :=
      List.mem_mergeSort.mp (List.mem_of_mem_take hx)
    obtain ⟨hxm, hxp⟩ := List.mem_filter.mp hx1
    refine ⟨of_decide_eq_true hxp, ?_⟩
    obtain ⟨m, _, rfl⟩ := List.mem_map.mp hxm
    simp only [scoreCandidate]
    exact min_le_right _ _

/-- C8 witness: for the concrete call with target a, the single exact-match
    candidate has similarity strictly above 1/10 and at most 1. -/
theorem findSimilarModels_bounded_witness :
    (1 : Rat)/10
        < (⟨"a", 1, "Exact match, Same family: a, Common tokens: a"⟩ : SimilarModel).similarity ∧
    (⟨"a", 1, "Exact match, Same family: a, Common tokens: a"⟩ : SimilarModel).similarity ≤ 1 := by
  have h1 : findSimilarModels "a" ["a"]
      = [⟨"a", 1, "Exact match, Same family: a, Common tokens: a"⟩] := by
    simp [findSimilarModels, scoreCandidate, tokenize, splitFields, isSepChar,
      commonSuffixes, containsSeq, isPrefixL, simLe, List.mergeSort]
    norm_num
    decide
  have hmem : (⟨"a", 1, "Exact match, Same family: a, Common tokens: a"⟩ : SimilarModel)
      ∈ findSimilarModels "a" ["a"] := by
    rw [h1]
    exact List.mem_singleton.mpr rfl
  exact (findSimilarModels_bounded "a" ["a"]).2.2 _ hmem

end LlamaCpp
